import Mathlib

/-!
Verification of the pure logic of the `tfstack/terraform-provider-discord`
Terraform provider: the color converter (`hexToDecimal`, `rgbToDecimal` in
`internal/provider/data_source_color.go`), the composite import-ID codecs
(`messageResource.ImportState`, `roleMemberResource.ImportState`,
`emojiResource.ImportState`, `channelPermissionResource.ImportState`), and the
channel-type codec (`channelTypeFromString`, `channelTypeToString` in
`internal/provider/resource_channel.go`).

Go strings are modelled as `List Char` (the inputs of interest are ASCII, where
Go's byte indexing and rune lists agree; the delimiter `':'` and all grammar
characters are single-byte, so byte-level splitting and rune-level splitting
produce the same segments). Fallible Go functions returning `(value, error)`
become `Except`/`Option` values; the Go callers only consume the value when the
error is nil, so the error branches drop the (always zero) partial value.
-/

namespace DiscordProvider

/-! ### Character classes used by the Go regular expressions

`regexp` in Go is RE2: `\d` is ASCII `[0-9]` and `\s` is `[\t\n\f\r ]`.
-/

/-- RE2 `\d`: an ASCII decimal digit. -/
def isDigitChar (c : Char) : Bool :=
  decide (48 ≤ c.toNat ∧ c.toNat ≤ 57)

/-- RE2 `\s`: one of tab, newline, form feed, carriage return, space. -/
def isSpaceChar (c : Char) : Bool :=
  decide (c.toNat = 9 ∨ c.toNat = 10 ∨ c.toNat = 12 ∨ c.toNat = 13 ∨ c.toNat = 32)

/-- The character class `[0-9A-F]` from the hex validation regex
`^[0-9A-F]+$` in `hexToDecimal`. -/
def isUpperHexChar (c : Char) : Bool :=
  decide ((48 ≤ c.toNat ∧ c.toNat ≤ 57) ∨ (65 ≤ c.toNat ∧ c.toNat ≤ 70))

/-- A hex digit in either case, i.e. a character that the full `hexToDecimal`
pipeline (uppercase, then `^[0-9A-F]+$`) accepts.  Used only to state claims
about "valid hex strings". -/
def isHexChar (c : Char) : Bool :=
  decide ((48 ≤ c.toNat ∧ c.toNat ≤ 57) ∨ (65 ≤ c.toNat ∧ c.toNat ≤ 70) ∨
    (97 ≤ c.toNat ∧ c.toNat ≤ 102))

/-! ### strconv.ParseInt

`strconv.ParseInt(s, base, 64)` with base 10 or 16 as used by the converters:
an optional sign, then one or more digits of the base (letters accepted in
either case), rejecting the empty string, any digit out of base, and any value
that overflows a signed 64-bit integer.  Go returns `(0, err)` or an in-range
value; we return `Option Int` since every caller discards the value when the
error is non-nil. -/

/-- The numeric value strconv assigns to a digit character (`0`-`9`,
`a`-`z`, `A`-`Z`), before the `d < base` check. -/
def digitVal (c : Char) : Option Nat :=
  if 48 ≤ c.toNat ∧ c.toNat ≤ 57 then some (c.toNat - 48)
  else if 97 ≤ c.toNat ∧ c.toNat ≤ 122 then some (c.toNat - 87)
  else if 65 ≤ c.toNat ∧ c.toNat ≤ 90 then some (c.toNat - 55)
  else none

/-- Accumulate the digits of `base`-ary numeral, most significant first;
`none` on a character that is not a digit of the base.  (Go additionally
checks for overflow at each step; the final magnitude check in `goParseInt`
is observationally the same because `Nat` cannot overflow.) -/
def digitsVal (base : Nat) : List Char → Nat → Option Nat
  | [], acc => some acc
  | c :: cs, acc =>
    match digitVal c with
    | none => none
    | some d => if d < base then digitsVal base cs (acc * base + d) else none

/-- `strconv.ParseInt(s, base, 64)`, as an `Option Int`. -/
def goParseInt (base : Nat) (s : List Char) : Option Int :=
  match s with
  | [] => none
  | c :: cs =>
    let digits := if c = '-' ∨ c = '+' then cs else c :: cs
    if digits = [] then none
    else
      match digitsVal base digits 0 with
      | none => none
      | some n =>
        if c = '-' then
          if n ≤ 2 ^ 63 then some (-(n : Int)) else none
        else
          if n < 2 ^ 63 then some (n : Int) else none

/-! ### hexToDecimal (data_source_color.go, lines 135-166) -/

/-- The distinguishable failures of `hexToDecimal`.  In Go each is a distinct
`fmt.Errorf` message: bad characters, bad length, or a `strconv` failure. -/
inductive HexErr where
  | invalidFormat
  | invalidLength
  | parseFailure
deriving DecidableEq

/-- `strings.TrimPrefix(hex, "#")`. -/
def dropHash : List Char → List Char
  | [] => []
  | c :: rest => if c = '#' then rest else c :: rest

/-- The short-form expansion `hex[0]hex[0]hex[1]hex[1]hex[2]hex[2]` performed
under the `len(hex) == 3` guard. -/
def expandShort : List Char → List Char
  | [a, b, c] => [a, a, b, b, c, c]
  | s => s

/-- `hexToDecimal` from `data_source_color.go`: strip an optional `#`,
uppercase (`strings.ToUpper`; `Char.toUpper` is its ASCII restriction, and no
character outside ASCII uppercases into `[0-9A-F]`), require `^[0-9A-F]+$`,
expand a 3-character string to 6, require length 6, and parse base 16. -/
def hexToDecimal (input : List Char) : Except HexErr Int :=
  let hex := (dropHash input).map Char.toUpper
  if ¬(hex ≠ [] ∧ hex.all isUpperHexChar) then Except.error HexErr.invalidFormat
  else
    let hex6 := if hex.length = 3 then expandShort hex else hex
    if hex6.length ≠ 6 then Except.error HexErr.invalidLength
    else
      match goParseInt 16 hex6 with
      | none => Except.error HexErr.parseFailure
      | some v => Except.ok v

/-! ### rgbToDecimal (data_source_color.go, lines 170-207) -/

/-- The distinguishable failures of `rgbToDecimal`: regex mismatch, a
`strconv` failure on a captured group, or a per-channel range failure. -/
inductive RgbErr where
  | invalidFormat
  | redParse
  | redRange
  | greenParse
  | greenRange
  | blueParse
  | blueRange
deriving DecidableEq

/-- Drop the maximal run of `\s` characters (RE2 `\s*`; in the rgb regex every
`\s*` is followed by a non-space literal or digit, so maximal munch is exact). -/
def dropSpaces : List Char → List Char
  | [] => []
  | c :: rest => if isSpaceChar c then dropSpaces rest else c :: rest

/-- Take the maximal run of `\d` characters (RE2 `(\d+)`; each capture is
followed by `\s*` and then `,` or `)`, none of which is a digit, so maximal
munch is exact). -/
def takeDigits : List Char → List Char × List Char
  | [] => ([], [])
  | c :: rest =>
    if isDigitChar c then (c :: (takeDigits rest).1, (takeDigits rest).2)
    else ([], c :: rest)

/-- Consume one expected literal character. -/
def expectChar (c : Char) : List Char → Option (List Char)
  | [] => none
  | x :: rest => if x = c then some rest else none

/-- The anchored regex `^rgb\s*\(\s*(\d+)\s*,\s*(\d+)\s*,\s*(\d+)\s*\)$` of
`rgbToDecimal`, returning the three captured digit groups.  The regex is
deterministic (each `\s*`/`\d+` is delimited by characters outside its own
class), so this greedy matcher accepts exactly the same strings with exactly
the same captures. -/
def rgbCaptures (s : List Char) : Option (List Char × List Char × List Char) := do
  let s ← expectChar 'r' s
  let s ← expectChar 'g' s
  let s ← expectChar 'b' s
  let s := dropSpaces s
  let s ← expectChar '(' s
  let s := dropSpaces s
  let (d1, s) := takeDigits s
  if d1.isEmpty then none else
  let s := dropSpaces s
  let s ← expectChar ',' s
  let s := dropSpaces s
  let (d2, s) := takeDigits s
  if d2.isEmpty then none else
  let s := dropSpaces s
  let s ← expectChar ',' s
  let s := dropSpaces s
  let (d3, s) := takeDigits s
  if d3.isEmpty then none else
  let s := dropSpaces s
  let s ← expectChar ')' s
  if s.isEmpty then some (d1, d2, d3) else none

/-- `rgbToDecimal` from `data_source_color.go`: match the rgb regex, parse the
three captures in base 10, range-check each against `[0, 255]` in order, and
combine as `r*65536 + g*256 + b`. -/
def rgbToDecimal (input : List Char) : Except RgbErr Int :=
  match rgbCaptures input with
  | none => Except.error RgbErr.invalidFormat
  | some (d1, d2, d3) =>
    match goParseInt 10 d1 with
    | none => Except.error RgbErr.redParse
    | some r =>
      if r < 0 ∨ 255 < r then Except.error RgbErr.redRange
      else
        match goParseInt 10 d2 with
        | none => Except.error RgbErr.greenParse
        | some g =>
          if g < 0 ∨ 255 < g then Except.error RgbErr.greenRange
          else
            match goParseInt 10 d3 with
            | none => Except.error RgbErr.blueParse
            | some b =>
              if b < 0 ∨ 255 < b then Except.error RgbErr.blueRange
              else Except.ok (r * 65536 + g * 256 + b)

/-- The defensive range check in `colorDataSource.Read` (lines 117-124):
`decimalValue < 0 || decimalValue > 16777215` triggers the
"Invalid Color Range" error. -/
def colorRangeRejected (v : Int) : Bool :=
  decide (v < 0 ∨ 16777215 < v)

/-! ### Composite import-ID codecs -/

/-- The manual first-colon scan of `messageResource.ImportState`: it walks the
ID left to right and, at the first `':'`, yields the part before and the part
after it (`importID[:i]`, `importID[i+1:]`); no colon yields nothing. -/
def splitAtFirstColon : List Char → Option (List Char × List Char)
  | [] => none
  | c :: rest =>
    if c = ':' then some ([], rest)
    else
      match splitAtFirstColon rest with
      | none => none
      | some (a, b) => some (c :: a, b)

/-- The backwards scan of `channelPermissionResource.ImportState`: the part
before and after the last `':'` of the ID; no colon yields nothing. -/
def splitAtLastColon : List Char → Option (List Char × List Char)
  | [] => none
  | c :: rest =>
    match splitAtLastColon rest with
    | some (a, b) => some (c :: a, b)
    | none => if c = ':' then some ([], rest) else none

/-- Go `strings.Split(s, ":")` (single-byte separator): all the
colon-delimited segments, in order; the empty string gives `[""]`. -/
def splitOnColons : List Char → List (List Char)
  | [] => [[]]
  | c :: rest =>
    if c = ':' then [] :: splitOnColons rest
    else
      match splitOnColons rest with
      | [] => [[c]]
      | p :: ps => (c :: p) :: ps

/-- `messageResource.ImportState` (format `channel_id:message_id`): reject the
empty ID, split at the first colon, reject when there is none.  `none` stands
for the "Invalid Import ID" diagnostics. -/
def messageImportIDParse (s : List Char) : Option (List Char × List Char) :=
  if s.isEmpty then none
  else splitAtFirstColon s

/-- `roleMemberResource.ImportState` (format `guild_id:role_id:user_id`):
reject the empty ID, `strings.Split` on `':'`, require exactly 3 parts. -/
def roleMemberImportIDParse (s : List Char) :
    Option (List Char × List Char × List Char) :=
  if s.isEmpty then none
  else
    match splitOnColons s with
    | [a, b, c] => some (a, b, c)
    | _ => none

/-- `emojiResource.ImportState` (format `guild_id:emoji_id`): reject the empty
ID, `strings.Split` on `':'`, require exactly 2 parts. -/
def emojiImportIDParse (s : List Char) : Option (List Char × List Char) :=
  if s.isEmpty then none
  else
    match splitOnColons s with
    | [a, b] => some (a, b)
    | _ => none

/-- The composite ID built by `roleMemberResource.Create` (line 143):
`fmt.Sprintf("%s:%s:%s", guildID, roleID, userID)`. -/
def roleMemberBuildID (g r u : List Char) : List Char :=
  g ++ ':' :: r ++ ':' :: u

/-- The 2-segment composite key `a:b` (spec §4.2 Build with N = 2), the shape
`messageResource.ImportState` documents as `channel_id:message_id`. -/
def buildID2 (a b : List Char) : List Char :=
  a ++ ':' :: b

/-- discordgo `PermissionOverwriteTypeRole`. -/
def permissionOverwriteTypeRole : Nat := 0

/-- discordgo `PermissionOverwriteTypeMember`. -/
def permissionOverwriteTypeMember : Nat := 1

/-- The failures of `channelPermissionResource.ImportState`: the two
"Invalid Import ID" diagnostics (missing colons) and the "Invalid Type"
diagnostic (trailing tag not `role`/`member`). -/
inductive PermImportErr where
  | invalidImportID
  | invalidType
deriving DecidableEq

/-- `channelPermissionResource.ImportState` (format
`channel_id:overwrite_id:type`): split at the last colon (fail when there is
none), split the prefix at its first colon (fail when there is none), then map
the trailing tag `role`/`member` to the overwrite-type constant (fail
otherwise). -/
def channelPermImportIDParse (s : List Char) :
    Except PermImportErr (List Char × List Char × Nat) :=
  match splitAtLastColon s with
  | none => Except.error PermImportErr.invalidImportID
  | some (pre, typeStr) =>
    match splitAtFirstColon pre with
    | none => Except.error PermImportErr.invalidImportID
    | some (channelID, overwriteID) =>
      if typeStr = "role".data then
        Except.ok (channelID, overwriteID, permissionOverwriteTypeRole)
      else if typeStr = "member".data then
        Except.ok (channelID, overwriteID, permissionOverwriteTypeMember)
      else Except.error PermImportErr.invalidType

/-! ### Channel type codec (resource_channel.go, lines 39-86)

The numeric constants are discordgo's `ChannelType` values (a Go `int`).
-/

def channelTypeGuildText : Int := 0
def channelTypeGuildVoice : Int := 2
def channelTypeGuildCategory : Int := 4
def channelTypeGuildNews : Int := 5
def channelTypeGuildStageVoice : Int := 13
def channelTypeGuildDirectory : Int := 14
def channelTypeGuildForum : Int := 15
def channelTypeGuildMedia : Int := 16

/-- The failure of `channelTypeFromString`: the "invalid channel type" error
naming the creatable set.  (Go also returns `ChannelTypeGuildText` next to the
error; the caller only consumes it when the error is nil.) -/
inductive ChannelTypeErr where
  | unsupportedChannelType
deriving DecidableEq

/-- `channelTypeFromString`: the creatable allow-list
`text`/(empty), `voice`, `category`, `media`, `directory`; everything else is
an error (news/stage/forum are deliberately commented out in the source). -/
def channelTypeFromString (s : String) : Except ChannelTypeErr Int :=
  if s = "text" ∨ s = "" then Except.ok channelTypeGuildText
  else if s = "voice" then Except.ok channelTypeGuildVoice
  else if s = "category" then Except.ok channelTypeGuildCategory
  else if s = "media" then Except.ok channelTypeGuildMedia
  else if s = "directory" then Except.ok channelTypeGuildDirectory
  else Except.error ChannelTypeErr.unsupportedChannelType

/-- `channelTypeToString`: renders the eight known constants and falls back to
`"text"` for any other value. -/
def channelTypeToString (t : Int) : String :=
  if t = channelTypeGuildText then "text"
  else if t = channelTypeGuildVoice then "voice"
  else if t = channelTypeGuildCategory then "category"
  else if t = channelTypeGuildNews then "news"
  else if t = channelTypeGuildStageVoice then "stage"
  else if t = channelTypeGuildForum then "forum"
  else if t = channelTypeGuildMedia then "media"
  else if t = channelTypeGuildDirectory then "directory"
  else "text"

/-! ### Spec-side value functions

These state what the converters are claimed to compute; the theorems compare
them with the embedded Go code above. -/

/-- Total numeric value of a digit character (0 on non-digits); agrees with
`digitVal` on every character `digitVal` accepts. -/
def charVal (c : Char) : Nat :=
  if 48 ≤ c.toNat ∧ c.toNat ≤ 57 then c.toNat - 48
  else if 97 ≤ c.toNat ∧ c.toNat ≤ 122 then c.toNat - 87
  else if 65 ≤ c.toNat ∧ c.toNat ≤ 90 then c.toNat - 55
  else 0

/-- The base-`base` value of a digit string, most significant digit first. -/
def specNumValue (base : Nat) (l : List Char) : Nat :=
  l.foldl (fun a c => a * base + charVal c) 0

/-- Follows the spec's words for the hex claims: the normalized form of a hex
body — uppercased, and a 3-digit body expanded by duplicating each digit. -/
def specNormalizeHex (body : List Char) : List Char :=
  let u := body.map Char.toUpper
  if u.length = 3 then expandShort u else u

/-- The number of `':'` delimiters in an ID. -/
def colonCount : List Char → Nat
  | [] => 0
  | c :: r => (if c = ':' then 1 else 0) + colonCount r

/-- The condition of the `^[0-9A-F]+$` regex check inside `hexToDecimal`,
after the strip-`#` and uppercase steps. -/
def goodHexFormat (s : List Char) : Prop :=
  ((dropHash s).map Char.toUpper) ≠ [] ∧ ((dropHash s).map Char.toUpper).all isUpperHexChar

instance (s : List Char) : Decidable (goodHexFormat s) := by
  unfold goodHexFormat
  infer_instance

/-! ### Character lemmas -/

theorem char_toNat_ofNat_valid {n : Nat} (h : n.isValidChar) :
    (Char.ofNat n).toNat = n := by
  rw [Char.ofNat, dif_pos h]
  simp [Char.ofNatAux, Char.toNat, UInt32.toNat]

theorem toUpper_toNat_of_lower (c : Char) (h : 97 ≤ c.toNat ∧ c.toNat ≤ 122) :
    c.toUpper.toNat = c.toNat - 32 := by
  simp only [Char.toUpper, if_pos h]
  exact char_toNat_ofNat_valid (Or.inl (by omega))

theorem toUpper_eq_of_not_lower (c : Char) (h : ¬(97 ≤ c.toNat ∧ c.toNat ≤ 122)) :
    c.toUpper = c := by
  simp only [Char.toUpper, if_neg h]

theorem isUpperHexChar_iff (c : Char) :
    isUpperHexChar c = true ↔
      ((48 ≤ c.toNat ∧ c.toNat ≤ 57) ∨ (65 ≤ c.toNat ∧ c.toNat ≤ 70)) := by
  simp [isUpperHexChar]

theorem isHexChar_iff (c : Char) :
    isHexChar c = true ↔
      ((48 ≤ c.toNat ∧ c.toNat ≤ 57) ∨ (65 ≤ c.toNat ∧ c.toNat ≤ 70) ∨
        (97 ≤ c.toNat ∧ c.toNat ≤ 102)) := by
  simp [isHexChar]

theorem isDigitChar_iff (c : Char) :
    isDigitChar c = true ↔ (48 ≤ c.toNat ∧ c.toNat ≤ 57) := by
  simp [isDigitChar]

theorem isSpaceChar_iff (c : Char) :
    isSpaceChar c = true ↔
      (c.toNat = 9 ∨ c.toNat = 10 ∨ c.toNat = 12 ∨ c.toNat = 13 ∨ c.toNat = 32) := by
  simp [isSpaceChar]

/-- Uppercasing a hex digit of either case yields a `[0-9A-F]` character. -/
theorem isUpperHexChar_toUpper (c : Char) (h : isHexChar c = true) :
    isUpperHexChar c.toUpper = true := by
  rw [isHexChar_iff] at h
  rcases h with h | h | h
  · rw [toUpper_eq_of_not_lower c (by omega), isUpperHexChar_iff]
    exact Or.inl h
  · rw [toUpper_eq_of_not_lower c (by omega), isUpperHexChar_iff]
    exact Or.inr h
  · rw [isUpperHexChar_iff, toUpper_toNat_of_lower c (by omega)]
    right
    omega

theorem digitVal_of_upperHex (c : Char) (h : isUpperHexChar c = true) :
    digitVal c = some (charVal c) ∧ charVal c < 16 ∧ 48 ≤ c.toNat := by
  rw [isUpperHexChar_iff] at h
  rcases h with h | h
  · rw [digitVal, if_pos h, charVal, if_pos h]
    refine ⟨rfl, by omega, by omega⟩
  · rw [digitVal, if_neg (by omega), if_neg (by omega), if_pos (by omega),
      charVal, if_neg (by omega), if_neg (by omega), if_pos (by omega)]
    refine ⟨rfl, by omega, by omega⟩

theorem digitVal_of_digit (c : Char) (h : isDigitChar c = true) :
    digitVal c = some (charVal c) ∧ charVal c < 10 ∧ 48 ≤ c.toNat := by
  rw [isDigitChar_iff] at h
  rw [digitVal, if_pos h, charVal, if_pos h]
  refine ⟨rfl, by omega, by omega⟩

theorem not_digit_of_space (c : Char) (h : isSpaceChar c = true) :
    isDigitChar c = false := by
  rw [isSpaceChar_iff] at h
  rw [← Bool.not_eq_true, isDigitChar_iff]
  omega

/-! ### digitsVal and goParseInt lemmas -/

theorem digitsVal_eq_foldl (base : Nat) (l : List Char) (acc : Nat)
    (h : ∀ c ∈ l, digitVal c = some (charVal c) ∧ charVal c < base) :
    digitsVal base l acc =
      some (l.foldl (fun a c => a * base + charVal c) acc) := by
  induction l generalizing acc with
  | nil => rfl
  | cons c cs ih =>
    have hc := h c (List.mem_cons_self c cs)
    rw [digitsVal, hc.1]
    simp only [if_pos hc.2, List.foldl_cons]
    exact ih (acc * base + charVal c) (fun x hx => h x (List.mem_cons_of_mem c hx))

theorem foldl_val_lt (base : Nat) (l : List Char) (acc : Nat)
    (h : ∀ c ∈ l, charVal c < base) :
    l.foldl (fun a c => a * base + charVal c) acc < (acc + 1) * base ^ l.length := by
  induction l generalizing acc with
  | nil => simp
  | cons c cs ih =>
    have hc := h c (List.mem_cons_self c cs)
    have hrec := ih (acc * base + charVal c) (fun x hx => h x (List.mem_cons_of_mem c hx))
    simp only [List.foldl_cons, List.length_cons]
    calc List.foldl (fun a c => a * base + charVal c) (acc * base + charVal c) cs
        < (acc * base + charVal c + 1) * base ^ cs.length := hrec
      _ ≤ ((acc + 1) * base) * base ^ cs.length := by
          have hstep : acc * base + charVal c + 1 ≤ (acc + 1) * base := by nlinarith
          exact Nat.mul_le_mul_right _ hstep
      _ = (acc + 1) * base ^ (cs.length + 1) := by ring

theorem specNumValue_lt (base : Nat) (l : List Char)
    (h : ∀ c ∈ l, charVal c < base) :
    specNumValue base l < base ^ l.length := by
  have hfold := foldl_val_lt base l 0 h
  simp [specNumValue] at hfold ⊢
  exact hfold

/-- `strconv.ParseInt` on a nonempty string of in-base digit characters whose
value fits in an `int64` succeeds with that value. -/
theorem goParseInt_of_valid (base : Nat) (l : List Char)
    (hne : l ≠ [])
    (h : ∀ c ∈ l, digitVal c = some (charVal c) ∧ charVal c < base ∧ 48 ≤ c.toNat)
    (hbound : specNumValue base l < 2 ^ 63) :
    goParseInt base l = some ((specNumValue base l : Nat) : Int) := by
  match l, hne with
  | c :: cs, _ =>
    have hc := h c (List.mem_cons_self c cs)
    have hcm : ¬(c = '-' ∨ c = '+') := by
      rintro (rfl | rfl)
      · exact absurd hc.2.2 (by decide)
      · exact absurd hc.2.2 (by decide)
    rw [goParseInt]
    simp only [if_neg hcm, if_neg (List.cons_ne_nil c cs)]
    rw [digitsVal_eq_foldl base (c :: cs) 0 (fun x hx => ⟨(h x hx).1, (h x hx).2.1⟩)]
    have hminus : ¬ c = '-' := fun hcc => hcm (Or.inl hcc)
    simp only [specNumValue] at hbound ⊢
    simp only [if_neg hminus, if_pos hbound]

/-! ### Colon-splitting lemmas -/

theorem splitAtFirstColon_eq_none_iff (s : List Char) :
    splitAtFirstColon s = none ↔ ':' ∉ s := by
  induction s with
  | nil => simp [splitAtFirstColon]
  | cons c rest ih =>
    rw [splitAtFirstColon, List.mem_cons]
    by_cases hc : c = ':'
    · subst hc
      simp
    · rw [if_neg hc]
      have hcs : ¬(':' = c) := fun h => hc h.symm
      cases hrec : splitAtFirstColon rest with
      | none =>
        rw [hrec] at ih
        have hnotin : ':' ∉ rest := ih.mp rfl
        simp [hcs, hnotin]
      | some p =>
        obtain ⟨a, b⟩ := p
        rw [hrec] at ih
        have hin : ':' ∈ rest := by
          by_contra hnot
          exact absurd (ih.mpr hnot) (by simp)
        simp [hin]

theorem splitAtFirstColon_append (a b : List Char) (ha : ':' ∉ a) :
    splitAtFirstColon (a ++ ':' :: b) = some (a, b) := by
  induction a with
  | nil => simp [splitAtFirstColon]
  | cons c rest ih =>
    have hc : ¬ c = ':' := fun h => ha (by simp [h])
    rw [List.cons_append, splitAtFirstColon, if_neg hc,
      ih (fun h => ha (List.mem_cons_of_mem c h))]

theorem splitAtLastColon_eq_none_iff (s : List Char) :
    splitAtLastColon s = none ↔ ':' ∉ s := by
  induction s with
  | nil => simp [splitAtLastColon]
  | cons c rest ih =>
    rw [splitAtLastColon, List.mem_cons]
    cases hrec : splitAtLastColon rest with
    | none =>
      rw [hrec] at ih
      have hnotin : ':' ∉ rest := ih.mp rfl
      by_cases hc : c = ':'
      · subst hc
        simp
      · have hcs : ¬(':' = c) := fun h => hc h.symm
        simp [if_neg hc, hcs, hnotin]
    | some p =>
      obtain ⟨x, y⟩ := p
      rw [hrec] at ih
      have hin : ':' ∈ rest := by
        by_contra hnot
        exact absurd (ih.mpr hnot) (by simp)
      simp [hin]

theorem splitAtLastColon_append (p t : List Char) (ht : ':' ∉ t) :
    splitAtLastColon (p ++ ':' :: t) = some (p, t) := by
  induction p with
  | nil =>
    rw [List.nil_append, splitAtLastColon,
      (splitAtLastColon_eq_none_iff t).mpr ht, if_pos rfl]
  | cons c rest ih =>
    rw [List.cons_append, splitAtLastColon, ih]

theorem splitAtLastColon_spec (s p t : List Char)
    (h : splitAtLastColon s = some (p, t)) :
    s = p ++ ':' :: t ∧ ':' ∉ t := by
  induction s generalizing p t with
  | nil => exact absurd h (by simp [splitAtLastColon])
  | cons c rest ih =>
    rw [splitAtLastColon] at h
    cases hrec : splitAtLastColon rest with
    | none =>
      rw [hrec] at h
      by_cases hc : c = ':'
      · rw [if_pos hc] at h
        simp only [Option.some.injEq, Prod.mk.injEq] at h
        obtain ⟨hp, htt⟩ := h
        subst hc
        subst hp
        subst htt
        exact ⟨rfl, (splitAtLastColon_eq_none_iff rest).mp hrec⟩
      · rw [if_neg hc] at h
        exact absurd h (by simp)
    | some q =>
      obtain ⟨x, y⟩ := q
      rw [hrec] at h
      simp only [Option.some.injEq, Prod.mk.injEq] at h
      obtain ⟨hp, htt⟩ := h
      obtain ⟨hx, hy⟩ := ih x y hrec
      subst htt
      rw [← hp, List.cons_append, hx]
      exact ⟨rfl, hy⟩

theorem splitOnColons_ne_nil (s : List Char) : splitOnColons s ≠ [] := by
  cases s with
  | nil => simp [splitOnColons]
  | cons c rest =>
    rw [splitOnColons]
    by_cases hc : c = ':'
    · simp [hc]
    · rw [if_neg hc]
      cases hrec : splitOnColons rest <;> simp

theorem splitOnColons_no_colon (s : List Char) (h : ':' ∉ s) :
    splitOnColons s = [s] := by
  induction s with
  | nil => rfl
  | cons c rest ih =>
    have hc : ¬ c = ':' := fun hcc => h (by simp [hcc])
    rw [splitOnColons, if_neg hc, ih (fun hm => h (List.mem_cons_of_mem c hm))]

theorem splitOnColons_append (a t : List Char) (ha : ':' ∉ a) :
    splitOnColons (a ++ ':' :: t) = a :: splitOnColons t := by
  induction a with
  | nil => simp [splitOnColons]
  | cons c rest ih =>
    have hc : ¬ c = ':' := fun hcc => ha (by simp [hcc])
    rw [List.cons_append, splitOnColons, if_neg hc,
      ih (fun hm => ha (List.mem_cons_of_mem c hm))]

theorem splitOnColons_length (s : List Char) :
    (splitOnColons s).length = colonCount s + 1 := by
  induction s with
  | nil => rfl
  | cons c rest ih =>
    rw [splitOnColons, colonCount]
    by_cases hc : c = ':'
    · rw [if_pos hc, if_pos hc, List.length_cons, ih]
      omega
    · rw [if_neg hc, if_neg hc]
      cases hrec : splitOnColons rest with
      | nil => exact absurd hrec (splitOnColons_ne_nil rest)
      | cons p ps =>
        rw [hrec] at ih
        simp only [List.length_cons] at ih ⊢
        omega

/-! ### hexToDecimal pipeline lemmas -/

/-- Parsing a 6-character `[0-9A-F]` string in base 16 succeeds and stays
within the 24-bit range. -/
theorem hexParse_ok (l : List Char)
    (hall : ∀ c ∈ l, isUpperHexChar c = true) (hlen : l.length = 6) :
    goParseInt 16 l = some ((specNumValue 16 l : Nat) : Int) ∧
    specNumValue 16 l ≤ 16777215 := by
  have hd := fun c hc => digitVal_of_upperHex c (hall c hc)
  have hlt : specNumValue 16 l < 16 ^ l.length :=
    specNumValue_lt 16 l (fun c hc => (hd c hc).2.1)
  rw [hlen] at hlt
  norm_num at hlt
  have hne : l ≠ [] := by
    intro h0
    rw [h0] at hlen
    simp at hlen
  exact ⟨goParseInt_of_valid 16 l hne hd (by omega), by omega⟩

/-- On a stripped body of 3 or 6 hex digits (either case), `hexToDecimal`
takes the success path and returns the base-16 value of the normalized
(uppercased, 3-to-6 expanded) string, which is at most `0xFFFFFF`. -/
theorem hexToDecimal_of_good (s : List Char)
    (hhex : ∀ c ∈ dropHash s, isHexChar c = true)
    (hlen : (dropHash s).length = 3 ∨ (dropHash s).length = 6) :
    hexToDecimal s =
      Except.ok ((specNumValue 16 (specNormalizeHex (dropHash s)) : Nat) : Int) ∧
    specNumValue 16 (specNormalizeHex (dropHash s)) ≤ 16777215 := by
  have hmap : ((dropHash s).map Char.toUpper).length = (dropHash s).length :=
    List.length_map _ _
  have hne : (dropHash s).map Char.toUpper ≠ [] := by
    intro h0
    have hlen0 : (dropHash s).length = 0 := by
      rw [← hmap, h0]
      rfl
    rcases hlen with h3 | h6 <;> omega
  have hall : ∀ c ∈ (dropHash s).map Char.toUpper, isUpperHexChar c = true := by
    intro c hc
    obtain ⟨x, hx, rfl⟩ := List.mem_map.mp hc
    exact isUpperHexChar_toUpper x (hhex x hx)
  simp only [hexToDecimal]
  rw [if_neg (not_not_intro ⟨hne, List.all_eq_true.mpr hall⟩)]
  rcases hlen with h3 | h6
  · -- short form: expand to six digits
    obtain ⟨x, y, z, hxyz⟩ := List.length_eq_three.mp h3
    rw [hxyz] at hall ⊢
    simp only [List.map_cons, List.map_nil] at hall ⊢
    have hall6 : ∀ c ∈ [x.toUpper, x.toUpper, y.toUpper, y.toUpper, z.toUpper, z.toUpper],
        isUpperHexChar c = true := by
      intro c hc
      simp only [List.mem_cons, List.not_mem_nil, or_false] at hc
      rcases hc with rfl | rfl | rfl | rfl | rfl | rfl <;>
        exact hall _ (by simp)
    obtain ⟨hparse, hbound⟩ := hexParse_ok _ hall6 rfl
    simp only [specNormalizeHex, List.map_cons, List.map_nil, List.length_cons,
      List.length_nil, expandShort, if_pos rfl]
    norm_num
    rw [hparse]
    exact ⟨rfl, hbound⟩
  · -- six digits already
    have hlen6 : ((dropHash s).map Char.toUpper).length = 6 := hmap.trans h6
    obtain ⟨hparse, hbound⟩ := hexParse_ok _ hall hlen6
    simp only [specNormalizeHex, hlen6]
    norm_num
    rw [hparse]
    rw [if_pos h6]
    exact ⟨rfl, hbound⟩

/-- A character whose uppercased form lies in `[0-9A-F]` is a hex digit of
some case. -/
theorem isHexChar_of_toUpper (x : Char) (h : isUpperHexChar x.toUpper = true) :
    isHexChar x = true := by
  by_cases hl : 97 ≤ x.toNat ∧ x.toNat ≤ 122
  · rw [isUpperHexChar_iff, toUpper_toNat_of_lower x hl] at h
    rw [isHexChar_iff]
    omega
  · rw [toUpper_eq_of_not_lower x hl] at h
    rw [isUpperHexChar_iff] at h
    rw [isHexChar_iff]
    rcases h with h | h
    · exact Or.inl h
    · exact Or.inr (Or.inl h)

theorem goodHexFormat_chars (s : List Char) (hg : goodHexFormat s) :
    ∀ c ∈ dropHash s, isHexChar c = true := by
  intro c hc
  exact isHexChar_of_toUpper c
    (List.all_eq_true.mp hg.2 _ (List.mem_map_of_mem _ hc))

theorem hexToDecimal_badFormat (s : List Char) (hg : ¬goodHexFormat s) :
    hexToDecimal s = Except.error HexErr.invalidFormat := by
  simp only [hexToDecimal]
  exact if_pos hg

theorem hexToDecimal_badLength (s : List Char) (hg : goodHexFormat s)
    (h3 : (dropHash s).length ≠ 3) (h6 : (dropHash s).length ≠ 6) :
    hexToDecimal s = Except.error HexErr.invalidLength := by
  have hmap : ((dropHash s).map Char.toUpper).length = (dropHash s).length :=
    List.length_map _ _
  have hg' : (dropHash s).map Char.toUpper ≠ [] ∧
      ((dropHash s).map Char.toUpper).all isUpperHexChar = true := hg
  simp only [hexToDecimal]
  rw [if_neg (not_not_intro hg'), if_neg (show ¬((dropHash s).map Char.toUpper).length = 3
    from by rw [hmap]; exact h3)]
  exact if_pos (show ((dropHash s).map Char.toUpper).length ≠ 6 from by rw [hmap]; exact h6)

theorem hexToDecimal_invalidFormat_iff (s : List Char) :
    hexToDecimal s = Except.error HexErr.invalidFormat ↔ ¬goodHexFormat s := by
  constructor
  · intro h
    by_contra hg
    by_cases hlen : (dropHash s).length = 3 ∨ (dropHash s).length = 6
    · obtain ⟨hok, _⟩ := hexToDecimal_of_good s (goodHexFormat_chars s hg) hlen
      rw [hok] at h
      exact Except.noConfusion h
    · push_neg at hlen
      rw [hexToDecimal_badLength s hg hlen.1 hlen.2] at h
      injection h with h
      exact HexErr.noConfusion h
  · exact hexToDecimal_badFormat s

theorem hexToDecimal_invalidLength_iff (s : List Char) :
    hexToDecimal s = Except.error HexErr.invalidLength ↔
      goodHexFormat s ∧ (dropHash s).length ≠ 3 ∧ (dropHash s).length ≠ 6 := by
  constructor
  · intro h
    by_cases hg : goodHexFormat s
    · by_cases hlen : (dropHash s).length = 3 ∨ (dropHash s).length = 6
      · obtain ⟨hok, _⟩ := hexToDecimal_of_good s (goodHexFormat_chars s hg) hlen
        rw [hok] at h
        exact Except.noConfusion h
      · push_neg at hlen
        exact ⟨hg, hlen.1, hlen.2⟩
    · rw [hexToDecimal_badFormat s hg] at h
      injection h with h
      exact HexErr.noConfusion h
  · intro ⟨hg, h3, h6⟩
    exact hexToDecimal_badLength s hg h3 h6

theorem hexToDecimal_ok_bounds (s : List Char) (v : Int)
    (h : hexToDecimal s = Except.ok v) : 0 ≤ v ∧ v ≤ 16777215 := by
  by_cases hg : goodHexFormat s
  · by_cases hlen : (dropHash s).length = 3 ∨ (dropHash s).length = 6
    · obtain ⟨hok, hb⟩ := hexToDecimal_of_good s (goodHexFormat_chars s hg) hlen
      rw [hok] at h
      injection h with h
      rw [← h]
      constructor
      · exact Int.natCast_nonneg _
      · exact_mod_cast hb
    · push_neg at hlen
      rw [hexToDecimal_badLength s hg hlen.1 hlen.2] at h
      exact Except.noConfusion h
  · rw [hexToDecimal_badFormat s hg] at h
    exact Except.noConfusion h

/-! ### Claim C1 -/

/-- C1 (amended): for every valid hex color string — 3 or 6 hex digits, an
optional leading `#`, any letter case — `hexToDecimal` succeeds and returns
the base-16 value of the normalized string (uppercased, with each character
of a 3-digit input duplicated first), the result lies in `[0, 16777215]`, and
on the concrete examples: `#000000 ↦ 0`, `#FFFFFF ↦ 16777215`,
`4287f5 ↦ 4360181`, and `#f5a` and `ff55aa` both map to 16733610
(`0xFF55AA`; the claim's value 16732330 is arithmetically wrong). -/
theorem C1_hexToDecimal_valid (input body : List Char)
    (hshape : input = body ∨ input = '#' :: body)
    (hhex : ∀ c ∈ body, isHexChar c = true)
    (hlen : body.length = 3 ∨ body.length = 6) :
    hexToDecimal input =
      Except.ok ((specNumValue 16 (specNormalizeHex body) : Nat) : Int) ∧
    (0 : Int) ≤ ((specNumValue 16 (specNormalizeHex body) : Nat) : Int) ∧
    ((specNumValue 16 (specNormalizeHex body) : Nat) : Int) ≤ 16777215 ∧
    hexToDecimal "#000000".data = Except.ok 0 ∧
    hexToDecimal "#FFFFFF".data = Except.ok 16777215 ∧
    hexToDecimal "4287f5".data = Except.ok 4360181 ∧
    hexToDecimal "#f5a".data = Except.ok 16733610 ∧
    hexToDecimal "ff55aa".data = Except.ok 16733610 := by
  have hdrop : dropHash input = body := by
    rcases hshape with h | h
    · rw [h]
      cases body with
      | nil =>
        rcases hlen with h0 | h0 <;> simp at h0
      | cons c rest =>
        have hc := hhex c (List.mem_cons_self c rest)
        have hch : ¬c = '#' := by
          intro hcc
          subst hcc
          revert hc
          decide
        rw [dropHash, if_neg hch]
    · rw [h, dropHash, if_pos rfl]
  obtain ⟨hok, hb⟩ := hexToDecimal_of_good input
    (by rw [hdrop]; exact hhex) (by rw [hdrop]; exact hlen)
  rw [hdrop] at hok hb
  exact ⟨hok, Int.natCast_nonneg _, by exact_mod_cast hb, rfl, rfl, rfl, rfl, rfl⟩

/-- C1, counterexample: the claim asserts `hexToDecimal("#f5a") = 16732330`,
but the code computes `0xFF55AA = 16733610`. -/
theorem C1_counterexample :
    hexToDecimal "#f5a".data = Except.ok 16733610 ∧
    hexToDecimal "#f5a".data ≠ Except.ok 16732330 := by
  refine ⟨rfl, ?_⟩
  intro h
  rw [show hexToDecimal "#f5a".data = Except.ok 16733610 from rfl] at h
  injection h with h
  norm_num at h

/-- C1, witness: the general statement instantiated at `#4287f5`. -/
theorem C1_witness :
    hexToDecimal "#4287f5".data =
      Except.ok ((specNumValue 16 (specNormalizeHex "4287f5".data) : Nat) : Int) :=
  (C1_hexToDecimal_valid "#4287f5".data "4287f5".data (Or.inr rfl)
    (by decide) (Or.inr (by decide))).1

/-! ### Claim C5 -/

/-- C5 (amended): `hexToDecimal` fails with `InvalidFormat` exactly when,
after stripping an optional leading `#` and uppercasing, the remainder does
not match `^[0-9A-F]+$` (for example `#GGGGGG`), and fails with
`InvalidLength` exactly when the format check passes and the length after
stripping the `#` is neither 3 nor 6 (for example `#12345`); no partial
result accompanies a failure (the error constructors carry no value). -/
theorem C5_hex_error_conditions :
    (∀ s : List Char,
      hexToDecimal s = Except.error HexErr.invalidFormat ↔ ¬goodHexFormat s) ∧
    (∀ s : List Char,
      hexToDecimal s = Except.error HexErr.invalidLength ↔
        goodHexFormat s ∧ (dropHash s).length ≠ 3 ∧ (dropHash s).length ≠ 6) ∧
    hexToDecimal "#GGGGGG".data = Except.error HexErr.invalidFormat ∧
    hexToDecimal "#12345".data = Except.error HexErr.invalidLength :=
  ⟨hexToDecimal_invalidFormat_iff, hexToDecimal_invalidLength_iff, rfl, rfl⟩

/-- C5, counterexample: the claim's clause "fails with InvalidLength for
every input whose length is other than 3 or 6 characters" is false: the
4-character input `#123` succeeds (the `#` is stripped and the remaining 3
digits are expanded), and the 2-character all-hex-format-violating input
`GG` fails with `InvalidFormat`, not `InvalidLength`. -/
theorem C5_counterexample :
    ("#123".data).length = 4 ∧
    hexToDecimal "#123".data = Except.ok 1122867 ∧
    ("GG".data).length = 2 ∧
    hexToDecimal "GG".data = Except.error HexErr.invalidFormat ∧
    HexErr.invalidFormat ≠ HexErr.invalidLength := by
  refine ⟨rfl, rfl, rfl, rfl, ?_⟩
  intro h
  exact HexErr.noConfusion h

/-- C5, witness: the two characterizations instantiated at `zz` (bad format)
and `12` (good format, bad length). -/
theorem C5_witness :
    hexToDecimal "zz".data = Except.error HexErr.invalidFormat ∧
    hexToDecimal "12".data = Except.error HexErr.invalidLength := by
  constructor
  · exact (C5_hex_error_conditions.1 "zz".data).mpr (by decide)
  · exact (C5_hex_error_conditions.2.1 "12".data).mpr
      ⟨by decide, by decide, by decide⟩

/-! ### Claim C9 -/

theorem rgbToDecimal_ok_bounds (s : List Char) (v : Int)
    (h : rgbToDecimal s = Except.ok v) : 0 ≤ v ∧ v ≤ 16777215 := by
  unfold rgbToDecimal at h
  cases hcap : rgbCaptures s with
  | none =>
    rw [hcap] at h
    exact Except.noConfusion h
  | some t =>
    obtain ⟨d1, d2, d3⟩ := t
    rw [hcap] at h
    dsimp only at h
    cases h1 : goParseInt 10 d1 with
    | none =>
      rw [h1] at h
      dsimp only at h
      exact Except.noConfusion h
    | some r =>
      rw [h1] at h
      dsimp only at h
      by_cases hr : r < 0 ∨ 255 < r
      · rw [if_pos hr] at h
        exact Except.noConfusion h
      · rw [if_neg hr] at h
        cases h2 : goParseInt 10 d2 with
        | none =>
          rw [h2] at h
          dsimp only at h
          exact Except.noConfusion h
        | some g =>
          rw [h2] at h
          dsimp only at h
          by_cases hgr : g < 0 ∨ 255 < g
          · rw [if_pos hgr] at h
            exact Except.noConfusion h
          · rw [if_neg hgr] at h
            cases h3 : goParseInt 10 d3 with
            | none =>
              rw [h3] at h
              dsimp only at h
              exact Except.noConfusion h
            | some b =>
              rw [h3] at h
              dsimp only at h
              by_cases hbr : b < 0 ∨ 255 < b
              · rw [if_pos hbr] at h
                exact Except.noConfusion h
              · rw [if_neg hbr] at h
                injection h with h
                push_neg at hr hgr hbr
                omega

/-- C9: whenever `hexToDecimal` or `rgbToDecimal` succeeds, the returned
value lies in `[0, 16777215]`, so the defensive range check in
`colorDataSource.Read` never fires on a converter-produced value. -/
theorem C9_converter_range (s : List Char) (v : Int)
    (h : hexToDecimal s = Except.ok v ∨ rgbToDecimal s = Except.ok v) :
    (0 ≤ v ∧ v ≤ 16777215) ∧ colorRangeRejected v = false := by
  have hb : 0 ≤ v ∧ v ≤ 16777215 := by
    rcases h with h | h
    · exact hexToDecimal_ok_bounds s v h
    · exact rgbToDecimal_ok_bounds s v h
  refine ⟨hb, ?_⟩
  simp only [colorRangeRejected, decide_eq_false_iff_not]
  omega

/-- C9, witness: instantiated at the hex input `#fff`. -/
theorem C9_witness :
    ((0 : Int) ≤ 16777215 ∧ (16777215 : Int) ≤ 16777215) ∧
    colorRangeRejected 16777215 = false :=
  C9_converter_range "#fff".data 16777215 (Or.inl rfl)

/-! ### Import-ID parse characterizations -/

theorem colonCount_eq_zero_iff (s : List Char) :
    colonCount s = 0 ↔ ':' ∉ s := by
  induction s with
  | nil => simp [colonCount]
  | cons c r ih =>
    rw [colonCount, List.mem_cons]
    by_cases hc : c = ':'
    · subst hc
      simp
    · have hcs : ¬(':' = c) := fun h => hc h.symm
      rw [if_neg hc]
      simp [hcs, ih]

theorem colonCount_append (a b : List Char) :
    colonCount (a ++ b) = colonCount a + colonCount b := by
  induction a with
  | nil => simp [colonCount]
  | cons c r ih =>
    rw [List.cons_append, colonCount, colonCount, ih]
    omega

theorem messageImportIDParse_none_iff (s : List Char) :
    messageImportIDParse s = none ↔ ':' ∉ s := by
  cases s with
  | nil => simp [messageImportIDParse, splitAtFirstColon]
  | cons c r =>
    rw [messageImportIDParse, if_neg (by simp)]
    exact splitAtFirstColon_eq_none_iff (c :: r)

theorem roleMemberImportIDParse_none_iff (s : List Char) :
    roleMemberImportIDParse s = none ↔ colonCount s ≠ 2 := by
  cases s with
  | nil => simp [roleMemberImportIDParse, colonCount]
  | cons c r =>
    rw [roleMemberImportIDParse, if_neg (by simp)]
    have h3 : (splitOnColons (c :: r)).length = colonCount (c :: r) + 1 :=
      splitOnColons_length _
    constructor
    · intro h hc2
      have hl3 : (splitOnColons (c :: r)).length = 3 := by omega
      obtain ⟨x, y, z, hxyz⟩ := List.length_eq_three.mp hl3
      rw [hxyz] at h
      simp at h
    · intro hc2
      cases hsp : splitOnColons (c :: r) with
      | nil => rfl
      | cons a t1 =>
        cases t1 with
        | nil => rfl
        | cons b t2 =>
          cases t2 with
          | nil => rfl
          | cons d t3 =>
            cases t3 with
            | nil =>
              rw [hsp] at h3
              simp at h3
              exact absurd (by omega) hc2
            | cons e t4 => rfl

theorem emojiImportIDParse_none_iff (s : List Char) :
    emojiImportIDParse s = none ↔ colonCount s ≠ 1 := by
  cases s with
  | nil => simp [emojiImportIDParse, colonCount]
  | cons c r =>
    rw [emojiImportIDParse, if_neg (by simp)]
    have h2 : (splitOnColons (c :: r)).length = colonCount (c :: r) + 1 :=
      splitOnColons_length _
    constructor
    · intro h hc1
      have hl2 : (splitOnColons (c :: r)).length = 2 := by omega
      obtain ⟨x, y, hxy⟩ := List.length_eq_two.mp hl2
      rw [hxy] at h
      simp at h
    · intro hc1
      cases hsp : splitOnColons (c :: r) with
      | nil => rfl
      | cons a t1 =>
        cases t1 with
        | nil => rfl
        | cons b t2 =>
          cases t2 with
          | nil =>
            rw [hsp] at h2
            simp at h2
            exact absurd (by omega) hc1
          | cons d t3 => rfl

/-! ### Claim C3 -/

/-- C3: composite-key round trip — joining two colon-free segments with `:`
and parsing with the message importer returns the original pair, and joining
three colon-free segments (as `roleMemberResource.Create` does for
`guild_id:role_id:user_id`) and parsing with the role-member importer
returns the original triple. -/
theorem C3_composite_key_roundtrip :
    (∀ a b : List Char, ':' ∉ a → ':' ∉ b →
      messageImportIDParse (buildID2 a b) = some (a, b)) ∧
    (∀ g r u : List Char, ':' ∉ g → ':' ∉ r → ':' ∉ u →
      roleMemberImportIDParse (roleMemberBuildID g r u) = some (g, r, u)) := by
  constructor
  · intro a b ha _hb
    rw [messageImportIDParse, buildID2, if_neg (by simp)]
    exact splitAtFirstColon_append a b ha
  · intro g r u hg hr hu
    rw [roleMemberImportIDParse, roleMemberBuildID, if_neg (by simp)]
    rw [List.append_assoc, List.cons_append]
    rw [splitOnColons_append g _ hg, splitOnColons_append r _ hr,
      splitOnColons_no_colon u hu]

/-- C3, witness: the round trips at `123:456` and `1:2:3`. -/
theorem C3_witness :
    messageImportIDParse (buildID2 "123".data "456".data) =
      some ("123".data, "456".data) ∧
    roleMemberImportIDParse (roleMemberBuildID "1".data "2".data "3".data) =
      some ("1".data, "2".data, "3".data) :=
  ⟨C3_composite_key_roundtrip.1 "123".data "456".data (by decide) (by decide),
   C3_composite_key_roundtrip.2 "1".data "2".data "3".data
     (by decide) (by decide) (by decide)⟩

/-! ### Claim C4 -/

/-- C4 (amended): the 2-segment message import parse fails with
InvalidImportID exactly when the ID contains no `:` at all, and the
3-segment role-member parse fails exactly when the ID does not contain
exactly two `:` — the parsers do not require the segments to be non-empty. -/
theorem C4_import_failure_conditions :
    (∀ s : List Char, messageImportIDParse s = none ↔ ':' ∉ s) ∧
    (∀ s : List Char, roleMemberImportIDParse s = none ↔ colonCount s ≠ 2) :=
  ⟨messageImportIDParse_none_iff, roleMemberImportIDParse_none_iff⟩

/-- C4, counterexample: both parsers accept IDs with empty segments — `::`
decomposes into three empty segments yet the role-member parse succeeds, and
`:x` has an empty first segment yet the message parse succeeds — refuting
"fails ... unless the ID decomposes into the expected number of non-empty
segments". -/
theorem C4_counterexample :
    roleMemberImportIDParse "::".data = some ([], [], []) ∧
    messageImportIDParse ":x".data = some ([], "x".data) :=
  ⟨rfl, rfl⟩

/-- C4, witness: the failure characterizations at `abc` (no colon) and
`a:b` (one colon). -/
theorem C4_witness :
    messageImportIDParse "abc".data = none ∧
    roleMemberImportIDParse "a:b".data = none :=
  ⟨(C4_import_failure_conditions.1 "abc".data).mpr (by decide),
   (C4_import_failure_conditions.2 "a:b".data).mpr (by decide)⟩

/-! ### Claim C10 -/

/-- C10: the two 2-segment import parsers disagree on IDs with two or more
colons — the message importer splits at the first `:` and accepts (for
`a:b:c`: channel `a`, message `b:c`), while the emoji importer splits on
every `:` and rejects any ID without exactly one colon. -/
theorem C10_two_segment_parser_disagreement :
    (∀ s : List Char, 2 ≤ colonCount s →
      messageImportIDParse s = splitAtFirstColon s ∧
      messageImportIDParse s ≠ none ∧
      emojiImportIDParse s = none) ∧
    (∀ s : List Char, emojiImportIDParse s = none ↔ colonCount s ≠ 1) ∧
    messageImportIDParse "a:b:c".data = some ("a".data, "b:c".data) ∧
    emojiImportIDParse "a:b:c".data = none := by
  refine ⟨?_, emojiImportIDParse_none_iff, rfl, rfl⟩
  intro s h2
  have hne : s ≠ [] := by
    intro h0
    rw [h0] at h2
    simp [colonCount] at h2
  refine ⟨?_, ?_, (emojiImportIDParse_none_iff s).mpr (by omega)⟩
  · rw [messageImportIDParse, if_neg (by simp [hne])]
  · intro hnone
    have hnotin := (messageImportIDParse_none_iff s).mp hnone
    have := (colonCount_eq_zero_iff s).mpr hnotin
    omega

/-- C10, witness: the disagreement at `x:y:z`. -/
theorem C10_witness :
    messageImportIDParse "x:y:z".data = splitAtFirstColon "x:y:z".data ∧
    messageImportIDParse "x:y:z".data ≠ none ∧
    emojiImportIDParse "x:y:z".data = none :=
  C10_two_segment_parser_disagreement.1 "x:y:z".data (by decide)

/-! ### Claim C8 -/

/-- C8: the channel-permission import parser splits at the last `:` for the
type tag (which must be `role` or `member`, failing with Invalid Type
otherwise), splits the remaining prefix at its first `:` into channel and
overwrite IDs, fails with InvalidImportID whenever the ID has fewer than two
colons, and on an ID whose channel or overwrite segment itself contains
colons it still succeeds — e.g. for the segments `a:b` and `c` the rebuilt ID
`a:b:c:role` parses, but as the misparsed pair `(a, b:c)`. -/
theorem C8_channel_permission_import :
    (∀ s : List Char, colonCount s < 2 →
      channelPermImportIDParse s = Except.error PermImportErr.invalidImportID) ∧
    (∀ ch ov tag : List Char, ':' ∉ ch → ':' ∉ ov → ':' ∉ tag →
      channelPermImportIDParse (ch ++ ':' :: ov ++ ':' :: tag) =
        (if tag = "role".data then
          Except.ok (ch, ov, permissionOverwriteTypeRole)
        else if tag = "member".data then
          Except.ok (ch, ov, permissionOverwriteTypeMember)
        else Except.error PermImportErr.invalidType)) ∧
    (∀ ch ov tag : List Char, ':' ∉ tag →
      (tag = "role".data ∨ tag = "member".data) →
      ∃ ch2 ov2 ty, channelPermImportIDParse (ch ++ ':' :: ov ++ ':' :: tag) =
        Except.ok (ch2, ov2, ty)) ∧
    channelPermImportIDParse "a:b:c:role".data =
      Except.ok ("a".data, "b:c".data, permissionOverwriteTypeRole) ∧
    ("a".data, "b:c".data) ≠ ("a:b".data, "c".data) := by
  refine ⟨?_, ?_, ?_, rfl, by decide⟩
  · intro s hcc
    rw [channelPermImportIDParse]
    cases hsl : splitAtLastColon s with
    | none => rfl
    | some p =>
      obtain ⟨pre, tag⟩ := p
      obtain ⟨hs, htag⟩ := splitAtLastColon_spec s pre tag hsl
      have htagc : colonCount tag = 0 := (colonCount_eq_zero_iff tag).mpr htag
      have hprec : colonCount pre = 0 := by
        rw [hs, colonCount_append] at hcc
        simp [colonCount, htagc] at hcc
        omega
      dsimp only
      rw [(splitAtFirstColon_eq_none_iff pre).mpr
        ((colonCount_eq_zero_iff pre).mp hprec)]
  · intro ch ov tag hch hov htag
    rw [channelPermImportIDParse,
      splitAtLastColon_append (ch ++ ':' :: ov) tag htag]
    dsimp only
    rw [splitAtFirstColon_append ch ov hch]
  · intro ch ov tag htag hvalid
    rw [channelPermImportIDParse,
      splitAtLastColon_append (ch ++ ':' :: ov) tag htag]
    dsimp only
    cases hsf : splitAtFirstColon (ch ++ ':' :: ov) with
    | none =>
      exact absurd ((splitAtFirstColon_eq_none_iff _).mp hsf) (by simp)
    | some p =>
      obtain ⟨c2, o2⟩ := p
      dsimp only
      rcases hvalid with h | h
      · exact ⟨c2, o2, permissionOverwriteTypeRole, by rw [if_pos h]⟩
      · refine ⟨c2, o2, permissionOverwriteTypeMember, ?_⟩
        have hnr : ¬tag = "role".data := by
          intro hr
          rw [hr] at h
          simp at h
        rw [if_neg hnr, if_pos h]

/-- C8, witness: the general split behaviour instantiated at
`123:456:role`. -/
theorem C8_witness :
    channelPermImportIDParse ("123".data ++ ':' :: "456".data ++ ':' :: "role".data) =
      (if "role".data = "role".data then
        Except.ok ("123".data, "456".data, permissionOverwriteTypeRole)
      else if "role".data = "member".data then
        Except.ok ("123".data, "456".data, permissionOverwriteTypeMember)
      else Except.error PermImportErr.invalidType) :=
  C8_channel_permission_import.2.1 "123".data "456".data "role".data
    (by decide) (by decide) (by decide)

/-! ### Claim C7 -/

/-- C7: `channelTypeFromString` maps `text` and the empty string to TEXT,
`voice`/`category`/`media`/`directory` to their constants, and fails with
UnsupportedChannelType on every other name; `channelTypeToString` inverts
this on the five creatable constants, renders the news/stage/forum constants
as `news`/`stage`/`forum`, and returns `text` for every other numeric
value instead of failing. -/
theorem C7_channel_type_codec :
    channelTypeFromString "text" = Except.ok channelTypeGuildText ∧
    channelTypeFromString "" = Except.ok channelTypeGuildText ∧
    channelTypeFromString "voice" = Except.ok channelTypeGuildVoice ∧
    channelTypeFromString "category" = Except.ok channelTypeGuildCategory ∧
    channelTypeFromString "media" = Except.ok channelTypeGuildMedia ∧
    channelTypeFromString "directory" = Except.ok channelTypeGuildDirectory ∧
    (∀ s : String, s ≠ "text" → s ≠ "" → s ≠ "voice" → s ≠ "category" →
      s ≠ "media" → s ≠ "directory" →
      channelTypeFromString s = Except.error ChannelTypeErr.unsupportedChannelType) ∧
    channelTypeFromString (channelTypeToString channelTypeGuildText) =
      Except.ok channelTypeGuildText ∧
    channelTypeFromString (channelTypeToString channelTypeGuildVoice) =
      Except.ok channelTypeGuildVoice ∧
    channelTypeFromString (channelTypeToString channelTypeGuildCategory) =
      Except.ok channelTypeGuildCategory ∧
    channelTypeFromString (channelTypeToString channelTypeGuildMedia) =
      Except.ok channelTypeGuildMedia ∧
    channelTypeFromString (channelTypeToString channelTypeGuildDirectory) =
      Except.ok channelTypeGuildDirectory ∧
    channelTypeToString channelTypeGuildNews = "news" ∧
    channelTypeToString channelTypeGuildStageVoice = "stage" ∧
    channelTypeToString channelTypeGuildForum = "forum" ∧
    (∀ t : Int, t ≠ 0 → t ≠ 2 → t ≠ 4 → t ≠ 5 → t ≠ 13 → t ≠ 14 → t ≠ 15 →
      t ≠ 16 → channelTypeToString t = "text") := by
  refine ⟨rfl, rfl, rfl, rfl, rfl, rfl, ?_, rfl, rfl, rfl, rfl, rfl, rfl, rfl,
    rfl, ?_⟩
  · intro s h1 h2 h3 h4 h5 h6
    rw [channelTypeFromString, if_neg (by rintro (h | h) <;> [exact h1 h; exact h2 h]),
      if_neg h3, if_neg h4, if_neg h5, if_neg h6]
  · intro t h0 h2 h4 h5 h13 h14 h15 h16
    rw [channelTypeToString, if_neg (show ¬t = channelTypeGuildText from h0),
      if_neg (show ¬t = channelTypeGuildVoice from h2),
      if_neg (show ¬t = channelTypeGuildCategory from h4),
      if_neg (show ¬t = channelTypeGuildNews from h5),
      if_neg (show ¬t = channelTypeGuildStageVoice from h13),
      if_neg (show ¬t = channelTypeGuildForum from h15),
      if_neg (show ¬t = channelTypeGuildMedia from h16),
      if_neg (show ¬t = channelTypeGuildDirectory from h14)]

/-- C7, witness: the fallthrough branches at the name `stage` (which cannot
be created) and the unknown numeric value 99. -/
theorem C7_witness :
    channelTypeFromString "stage" = Except.error ChannelTypeErr.unsupportedChannelType ∧
    channelTypeToString 99 = "text" := by
  obtain ⟨-, -, -, -, -, -, hdefault, -, -, -, -, -, -, -, -, hfallback⟩ :=
    C7_channel_type_codec
  exact ⟨hdefault "stage" (by decide) (by decide) (by decide) (by decide)
      (by decide) (by decide),
    hfallback 99 (by decide) (by decide) (by decide) (by decide) (by decide)
      (by decide) (by decide) (by decide)⟩

/-! ### rgb regex matcher lemmas -/

theorem expectChar_cons_self (c : Char) (r : List Char) :
    expectChar c (c :: r) = some r := by
  rw [expectChar, if_pos rfl]

theorem dropSpaces_append (w t : List Char) (hw : ∀ c ∈ w, isSpaceChar c = true) :
    dropSpaces (w ++ t) = dropSpaces t := by
  induction w with
  | nil => rfl
  | cons c r ih =>
    rw [List.cons_append, dropSpaces, if_pos (hw c (List.mem_cons_self c r))]
    exact ih (fun x hx => hw x (List.mem_cons_of_mem c hx))

theorem dropSpaces_cons_of (c : Char) (r : List Char) (h : isSpaceChar c = false) :
    dropSpaces (c :: r) = c :: r := by
  rw [dropSpaces, if_neg (by simp [h])]

theorem not_space_of_digit (c : Char) (h : isDigitChar c = true) :
    isSpaceChar c = false := by
  rw [isDigitChar_iff] at h
  rw [← Bool.not_eq_true, isSpaceChar_iff]
  omega

theorem takeDigits_append (d t : List Char)
    (hd : ∀ c ∈ d, isDigitChar c = true)
    (ht : ∀ c2 r2, t = c2 :: r2 → isDigitChar c2 = false) :
    takeDigits (d ++ t) = (d, t) := by
  induction d with
  | nil =>
    cases t with
    | nil => rfl
    | cons c2 r2 =>
      rw [List.nil_append, takeDigits, if_neg (by simp [ht c2 r2 rfl])]
  | cons c d' ih =>
    rw [List.cons_append, takeDigits, if_pos (hd c (List.mem_cons_self c d')),
      ih (fun x hx => hd x (List.mem_cons_of_mem c hx))]

/-- The continuation after a capture group — optional whitespace then a
non-digit delimiter — never starts with a digit. -/
theorem headNotDigit_wsDelim (w : List Char) (hw : ∀ x ∈ w, isSpaceChar x = true)
    (c : Char) (hc : isDigitChar c = false) (r : List Char) :
    ∀ c2 r2, w ++ c :: r = c2 :: r2 → isDigitChar c2 = false := by
  intro c2 r2 heq
  cases w with
  | nil =>
    rw [List.nil_append] at heq
    injection heq with h1 _h2
    rw [← h1]
    exact hc
  | cons x w' =>
    rw [List.cons_append] at heq
    injection heq with h1 _h2
    rw [← h1]
    have hx := hw x (List.mem_cons_self x w')
    rw [← Bool.not_eq_true, isDigitChar_iff]
    rw [isSpaceChar_iff] at hx
    omega

theorem takeDigits_fst_digits (s : List Char) :
    ∀ c ∈ (takeDigits s).1, isDigitChar c = true := by
  induction s with
  | nil =>
    intro c hc
    simp [takeDigits] at hc
  | cons x r ih =>
    intro c hc
    rw [takeDigits] at hc
    by_cases hx : isDigitChar x = true
    · rw [if_pos hx] at hc
      rcases List.mem_cons.mp hc with rfl | hmem
      · exact hx
      · exact ih c hmem
    · rw [if_neg (by simp [hx])] at hc
      simp at hc

/-- The deterministic matcher accepts the full rgb grammar shape with the
expected captures. -/
theorem rgbCaptures_shape
    (w1 w2 w3 w4 w5 w6 w7 d1 d2 d3 : List Char)
    (hw1 : ∀ c ∈ w1, isSpaceChar c = true) (hw2 : ∀ c ∈ w2, isSpaceChar c = true)
    (hw3 : ∀ c ∈ w3, isSpaceChar c = true) (hw4 : ∀ c ∈ w4, isSpaceChar c = true)
    (hw5 : ∀ c ∈ w5, isSpaceChar c = true) (hw6 : ∀ c ∈ w6, isSpaceChar c = true)
    (hw7 : ∀ c ∈ w7, isSpaceChar c = true)
    (hd1 : d1 ≠ []) (hd1d : ∀ c ∈ d1, isDigitChar c = true)
    (hd2 : d2 ≠ []) (hd2d : ∀ c ∈ d2, isDigitChar c = true)
    (hd3 : d3 ≠ []) (hd3d : ∀ c ∈ d3, isDigitChar c = true) :
    rgbCaptures ('r' :: 'g' :: 'b' :: (w1 ++ ('(' :: (w2 ++ (d1 ++ (w3 ++ (',' ::
        (w4 ++ (d2 ++ (w5 ++ (',' :: (w6 ++ (d3 ++ (w7 ++ [')']))))))))))))))
      = some (d1, d2, d3) := by
  obtain ⟨c1, d1t, rfl⟩ := List.exists_cons_of_ne_nil hd1
  obtain ⟨c2, d2t, rfl⟩ := List.exists_cons_of_ne_nil hd2
  obtain ⟨c3, d3t, rfl⟩ := List.exists_cons_of_ne_nil hd3
  rw [rgbCaptures]
  rw [expectChar_cons_self]
  simp only [Option.bind_eq_bind, Option.some_bind]
  rw [expectChar_cons_self]
  simp only [Option.some_bind]
  rw [expectChar_cons_self]
  simp only [Option.some_bind]
  rw [dropSpaces_append w1 _ hw1, dropSpaces_cons_of '(' _ (by decide),
    expectChar_cons_self]
  simp only [Option.some_bind]
  rw [dropSpaces_append w2 _ hw2, List.cons_append,
    dropSpaces_cons_of c1 _ (not_space_of_digit c1 (hd1d c1 (List.mem_cons_self c1 d1t))),
    ← List.cons_append,
    takeDigits_append (c1 :: d1t) _ hd1d (headNotDigit_wsDelim w3 hw3 ',' (by decide) _)]
  dsimp only
  simp only [List.isEmpty_cons, Bool.false_eq_true, if_false]
  rw [dropSpaces_append w3 _ hw3, dropSpaces_cons_of ',' _ (by decide),
    expectChar_cons_self]
  simp only [Option.some_bind]
  rw [dropSpaces_append w4 _ hw4, List.cons_append,
    dropSpaces_cons_of c2 _ (not_space_of_digit c2 (hd2d c2 (List.mem_cons_self c2 d2t))),
    ← List.cons_append,
    takeDigits_append (c2 :: d2t) _ hd2d (headNotDigit_wsDelim w5 hw5 ',' (by decide) _)]
  dsimp only
  simp only [List.isEmpty_cons, Bool.false_eq_true, if_false]
  rw [dropSpaces_append w5 _ hw5, dropSpaces_cons_of ',' _ (by decide),
    expectChar_cons_self]
  simp only [Option.some_bind]
  rw [dropSpaces_append w6 _ hw6, List.cons_append,
    dropSpaces_cons_of c3 _ (not_space_of_digit c3 (hd3d c3 (List.mem_cons_self c3 d3t))),
    ← List.cons_append,
    takeDigits_append (c3 :: d3t) _ hd3d (headNotDigit_wsDelim w7 hw7 ')' (by decide) _)]
  dsimp only
  simp only [List.isEmpty_cons, Bool.false_eq_true, if_false]
  rw [dropSpaces_append w7 _ hw7, dropSpaces_cons_of ')' _ (by decide),
    expectChar_cons_self]
  simp only [Option.some_bind, List.isEmpty_nil, if_true]

/-! ### Claim C2 -/

/-- C2 (amended): for every string of the form `rgb(R, G, B)`
(whitespace-tolerant) with each channel an integer in `[0, 255]`,
`rgbToDecimal` succeeds with exactly `R*65536 + G*256 + B`; both spacing
variants of `rgb(46, 204, 113)` yield 3066993
(`46*65536 + 204*256 + 113 = 3066993`; the claim's 3033457 is arithmetically
wrong), and the pure-channel examples yield 16711680, 65280, 255. -/
theorem C2_rgbToDecimal_valid
    (w1 w2 w3 w4 w5 w6 w7 d1 d2 d3 : List Char)
    (hw1 : ∀ c ∈ w1, isSpaceChar c = true) (hw2 : ∀ c ∈ w2, isSpaceChar c = true)
    (hw3 : ∀ c ∈ w3, isSpaceChar c = true) (hw4 : ∀ c ∈ w4, isSpaceChar c = true)
    (hw5 : ∀ c ∈ w5, isSpaceChar c = true) (hw6 : ∀ c ∈ w6, isSpaceChar c = true)
    (hw7 : ∀ c ∈ w7, isSpaceChar c = true)
    (hd1 : d1 ≠ []) (hd1d : ∀ c ∈ d1, isDigitChar c = true)
    (hd2 : d2 ≠ []) (hd2d : ∀ c ∈ d2, isDigitChar c = true)
    (hd3 : d3 ≠ []) (hd3d : ∀ c ∈ d3, isDigitChar c = true)
    (hR : specNumValue 10 d1 ≤ 255) (hG : specNumValue 10 d2 ≤ 255)
    (hB : specNumValue 10 d3 ≤ 255) :
    rgbToDecimal ('r' :: 'g' :: 'b' :: (w1 ++ ('(' :: (w2 ++ (d1 ++ (w3 ++ (',' ::
        (w4 ++ (d2 ++ (w5 ++ (',' :: (w6 ++ (d3 ++ (w7 ++ [')'])))))))))))))) =
      Except.ok ((specNumValue 10 d1 : Int) * 65536 +
        (specNumValue 10 d2 : Int) * 256 + (specNumValue 10 d3 : Int)) ∧
    rgbToDecimal "rgb(46, 204, 113)".data = Except.ok 3066993 ∧
    rgbToDecimal "rgb(46,204,113)".data = Except.ok 3066993 ∧
    rgbToDecimal "rgb(255,0,0)".data = Except.ok 16711680 ∧
    rgbToDecimal "rgb(0,255,0)".data = Except.ok 65280 ∧
    rgbToDecimal "rgb(0,0,255)".data = Except.ok 255 := by
  refine ⟨?_, rfl, rfl, rfl, rfl, rfl⟩
  rw [rgbToDecimal,
    rgbCaptures_shape w1 w2 w3 w4 w5 w6 w7 d1 d2 d3 hw1 hw2 hw3 hw4 hw5 hw6 hw7
      hd1 hd1d hd2 hd2d hd3 hd3d]
  dsimp only
  have hv1 := fun c hc => digitVal_of_digit c (hd1d c hc)
  have hv2 := fun c hc => digitVal_of_digit c (hd2d c hc)
  have hv3 := fun c hc => digitVal_of_digit c (hd3d c hc)
  rw [goParseInt_of_valid 10 d1 hd1 hv1 (lt_of_le_of_lt hR (by norm_num))]
  dsimp only
  rw [if_neg (by
    push_neg
    exact ⟨Int.natCast_nonneg _, by exact_mod_cast hR⟩)]
  rw [goParseInt_of_valid 10 d2 hd2 hv2 (lt_of_le_of_lt hG (by norm_num))]
  dsimp only
  rw [if_neg (by
    push_neg
    exact ⟨Int.natCast_nonneg _, by exact_mod_cast hG⟩)]
  rw [goParseInt_of_valid 10 d3 hd3 hv3 (lt_of_le_of_lt hB (by norm_num))]
  dsimp only
  rw [if_neg (by
    push_neg
    exact ⟨Int.natCast_nonneg _, by exact_mod_cast hB⟩)]

/-- C2, counterexample: the claim asserts
`rgbToDecimal("rgb(46, 204, 113)") = 3033457`, but
`46*65536 + 204*256 + 113 = 3066993` and that is what the code returns. -/
theorem C2_counterexample :
    rgbToDecimal "rgb(46, 204, 113)".data = Except.ok 3066993 ∧
    (46 * 65536 + 204 * 256 + 113 : Int) = 3066993 ∧
    rgbToDecimal "rgb(46, 204, 113)".data ≠ Except.ok 3033457 := by
  refine ⟨rfl, by norm_num, ?_⟩
  intro h
  rw [show rgbToDecimal "rgb(46, 204, 113)".data = Except.ok 3066993 from rfl] at h
  injection h with h
  norm_num at h

/-- C2, witness: the general grammar statement instantiated at
`rgb(1,2,3)` with empty whitespace runs. -/
theorem C2_witness :
    rgbToDecimal ('r' :: 'g' :: 'b' :: ([] ++ ('(' :: ([] ++ ("1".data ++ ([] ++ (',' ::
        ([] ++ ("2".data ++ ([] ++ (',' :: ([] ++ ("3".data ++ ([] ++ [')'])))))))))))))) =
      Except.ok ((specNumValue 10 "1".data : Int) * 65536 +
        (specNumValue 10 "2".data : Int) * 256 + (specNumValue 10 "3".data : Int)) :=
  (C2_rgbToDecimal_valid [] [] [] [] [] [] [] "1".data "2".data "3".data
    (by decide) (by decide) (by decide) (by decide) (by decide) (by decide)
    (by decide) (by decide) (by decide) (by decide) (by decide) (by decide)
    (by decide) (by decide) (by decide) (by decide)).1

/-! ### Claim C6 -/

/-- Whatever the matcher captures are nonempty digit strings. -/
theorem rgbCaptures_digits (s d1 d2 d3 : List Char)
    (h : rgbCaptures s = some (d1, d2, d3)) :
    (d1 ≠ [] ∧ ∀ c ∈ d1, isDigitChar c = true) ∧
    (d2 ≠ [] ∧ ∀ c ∈ d2, isDigitChar c = true) ∧
    (d3 ≠ [] ∧ ∀ c ∈ d3, isDigitChar c = true) := by
  rw [rgbCaptures] at h
  simp only [Option.bind_eq_bind] at h
  cases h1 : expectChar 'r' s with
  | none =>
    rw [h1] at h
    simp at h
  | some s1 =>
  rw [h1] at h
  simp only [Option.some_bind] at h
  cases h2 : expectChar 'g' s1 with
  | none =>
    rw [h2] at h
    simp at h
  | some s2 =>
  rw [h2] at h
  simp only [Option.some_bind] at h
  cases h3 : expectChar 'b' s2 with
  | none =>
    rw [h3] at h
    simp at h
  | some s3 =>
  rw [h3] at h
  simp only [Option.some_bind] at h
  cases h4 : expectChar '(' (dropSpaces s3) with
  | none =>
    rw [h4] at h
    simp at h
  | some s4 =>
  rw [h4] at h
  simp only [Option.some_bind] at h
  cases h5 : takeDigits (dropSpaces s4) with
  | mk e1 t1 =>
  rw [h5] at h
  dsimp only at h
  by_cases he1 : e1.isEmpty = true
  · rw [if_pos he1] at h
    exact Option.noConfusion h
  rw [if_neg he1] at h
  cases h6 : expectChar ',' (dropSpaces t1) with
  | none =>
    rw [h6] at h
    simp at h
  | some s6 =>
  rw [h6] at h
  simp only [Option.some_bind] at h
  cases h7 : takeDigits (dropSpaces s6) with
  | mk e2 t2 =>
  rw [h7] at h
  dsimp only at h
  by_cases he2 : e2.isEmpty = true
  · rw [if_pos he2] at h
    exact Option.noConfusion h
  rw [if_neg he2] at h
  cases h8 : expectChar ',' (dropSpaces t2) with
  | none =>
    rw [h8] at h
    simp at h
  | some s8 =>
  rw [h8] at h
  simp only [Option.some_bind] at h
  cases h9 : takeDigits (dropSpaces s8) with
  | mk e3 t3 =>
  rw [h9] at h
  dsimp only at h
  by_cases he3 : e3.isEmpty = true
  · rw [if_pos he3] at h
    exact Option.noConfusion h
  rw [if_neg he3] at h
  cases h10 : expectChar ')' (dropSpaces t3) with
  | none =>
    rw [h10] at h
    simp at h
  | some s10 =>
  rw [h10] at h
  simp only [Option.some_bind] at h
  by_cases hs10 : s10.isEmpty = true
  · rw [if_pos hs10] at h
    injection h with h
    have he1d : e1 = d1 := congrArg Prod.fst h
    have hrest : (e2, e3) = (d2, d3) := congrArg Prod.snd h
    have he2d : e2 = d2 := congrArg Prod.fst hrest
    have he3d : e3 = d3 := congrArg Prod.snd hrest
    subst he1d
    subst he2d
    subst he3d
    have hall1 := takeDigits_fst_digits (dropSpaces s4)
    rw [h5] at hall1
    have hall2 := takeDigits_fst_digits (dropSpaces s6)
    rw [h7] at hall2
    have hall3 := takeDigits_fst_digits (dropSpaces s8)
    rw [h9] at hall3
    refine ⟨⟨?_, hall1⟩, ⟨?_, hall2⟩, ⟨?_, hall3⟩⟩
    · intro h0
      rw [h0] at he1
      exact he1 rfl
    · intro h0
      rw [h0] at he2
      exact he2 rfl
    · intro h0
      rw [h0] at he3
      exact he3 rfl
  · rw [if_neg hs10] at h
    exact Option.noConfusion h

/-- C6 (amended): `rgbToDecimal` fails with InvalidFormat when the input does
not match the `rgb(R, G, B)` grammar (e.g. `46, 204, 113`, and also
`rgb(-1,0,0)`, since `(\d+)` captures only unsigned digit strings, so a minus
sign is a format error, not a range error); when the grammar matches, a
captured channel value above 255 (and within int64) fails with the
component-specific OutOfRange error, checked in red, green, blue order —
e.g. `rgb(256,0,0)` fails with the red OutOfRange error. -/
theorem C6_rgb_error_conditions :
    (∀ s d1 d2 d3 : List Char, rgbCaptures s = some (d1, d2, d3) →
      (255 < specNumValue 10 d1 → specNumValue 10 d1 < 2 ^ 63 →
        rgbToDecimal s = Except.error RgbErr.redRange) ∧
      (specNumValue 10 d1 ≤ 255 →
        255 < specNumValue 10 d2 → specNumValue 10 d2 < 2 ^ 63 →
        rgbToDecimal s = Except.error RgbErr.greenRange) ∧
      (specNumValue 10 d1 ≤ 255 → specNumValue 10 d2 ≤ 255 →
        255 < specNumValue 10 d3 → specNumValue 10 d3 < 2 ^ 63 →
        rgbToDecimal s = Except.error RgbErr.blueRange)) ∧
    rgbToDecimal "46, 204, 113".data = Except.error RgbErr.invalidFormat ∧
    rgbToDecimal "rgb(256,0,0)".data = Except.error RgbErr.redRange ∧
    rgbToDecimal "rgb(-1,0,0)".data = Except.error RgbErr.invalidFormat := by
  refine ⟨?_, rfl, rfl, rfl⟩
  intro s d1 d2 d3 hcap
  obtain ⟨⟨hd1, hd1d⟩, ⟨hd2, hd2d⟩, ⟨hd3, hd3d⟩⟩ := rgbCaptures_digits s d1 d2 d3 hcap
  have hv1 := fun c hc => digitVal_of_digit c (hd1d c hc)
  have hv2 := fun c hc => digitVal_of_digit c (hd2d c hc)
  have hv3 := fun c hc => digitVal_of_digit c (hd3d c hc)
  refine ⟨?_, ?_, ?_⟩
  · intro hgt hlt
    rw [rgbToDecimal, hcap]
    dsimp only
    rw [goParseInt_of_valid 10 d1 hd1 hv1 hlt]
    dsimp only
    rw [if_pos (Or.inr (by exact_mod_cast hgt))]
  · intro hle1 hgt hlt
    rw [rgbToDecimal, hcap]
    dsimp only
    rw [goParseInt_of_valid 10 d1 hd1 hv1 (lt_of_le_of_lt hle1 (by norm_num))]
    dsimp only
    rw [if_neg (by
      push_neg
      exact ⟨Int.natCast_nonneg _, by exact_mod_cast hle1⟩)]
    rw [goParseInt_of_valid 10 d2 hd2 hv2 hlt]
    dsimp only
    rw [if_pos (Or.inr (by exact_mod_cast hgt))]
  · intro hle1 hle2 hgt hlt
    rw [rgbToDecimal, hcap]
    dsimp only
    rw [goParseInt_of_valid 10 d1 hd1 hv1 (lt_of_le_of_lt hle1 (by norm_num))]
    dsimp only
    rw [if_neg (by
      push_neg
      exact ⟨Int.natCast_nonneg _, by exact_mod_cast hle1⟩)]
    rw [goParseInt_of_valid 10 d2 hd2 hv2 (lt_of_le_of_lt hle2 (by norm_num))]
    dsimp only
    rw [if_neg (by
      push_neg
      exact ⟨Int.natCast_nonneg _, by exact_mod_cast hle2⟩)]
    rw [goParseInt_of_valid 10 d3 hd3 hv3 hlt]
    dsimp only
    rw [if_pos (Or.inr (by exact_mod_cast hgt))]

/-- C6, counterexample: the claim asserts `rgb(-1,0,0)` fails with
OutOfRange, but the grammar `(\d+)` cannot capture `-1`, so the code fails
with InvalidFormat — a different error from all three range errors. -/
theorem C6_counterexample :
    rgbToDecimal "rgb(-1,0,0)".data = Except.error RgbErr.invalidFormat ∧
    RgbErr.invalidFormat ≠ RgbErr.redRange ∧
    RgbErr.invalidFormat ≠ RgbErr.greenRange ∧
    RgbErr.invalidFormat ≠ RgbErr.blueRange :=
  ⟨rfl, by decide, by decide, by decide⟩

/-- C6, witness: the component-range statement instantiated at
`rgb(300,0,0)`. -/
theorem C6_witness :
    rgbToDecimal "rgb(300,0,0)".data = Except.error RgbErr.redRange :=
  ((C6_rgb_error_conditions.1 "rgb(300,0,0)".data "300".data "0".data "0".data
    rfl).1) (by decide) (by decide)

end DiscordProvider
